import Mathlib

/-!
Verification of the Steam bot's coordination, history and HTTP layers.

Shallow embedding of the Python sources:
* `redis_manager.py` — leader election, distributed locks, cross-instance
  sliding-window rate limiting (`RedisManager`);
* `steam_history.py` — snapshot log and incrementally maintained summary
  (`SteamPriceHistory`);
* `http_session.py` — retrying HTTP client with per-origin cooldown
  (`HTTPSessionManager`);
* `steam_tasks.py` — the three periodic background jobs
  (`SteamBackgroundTasks`);
* `config.py` — configuration loading and validation (`Config`).

Machine floats (`asyncio.get_event_loop().time()`, backoff delays) are
modelled as rationals; wall-clock datetimes as naturals (seconds).
-/

namespace SteamBot

/-! ## Redis model (redis_manager.py)

The store state visible to `RedisManager`: string keys holding a value with
an expiry (leader locks / distributed locks, written with `SET key val NX
EX ttl`), and sorted sets of timestamp scores (rate-limit windows).  A key
whose expiry has passed behaves as absent.  `RedisView` distinguishes the
three situations the Python methods branch on: `self.client is None`
(`absent`), the client raising on the call (`failing`), and a reachable
store in state `st`.
-/

structure KeyEntry where
  value : String
  expiresAt : Nat
  deriving DecidableEq, Repr

structure RedisState where
  kv : List (String × KeyEntry)
  zsets : List (String × List ℚ)
  deriving DecidableEq, Repr

inductive RedisView where
  | absent
  | failing
  | ok (st : RedisState)
  deriving DecidableEq, Repr

/-- Assoc-list lookup for the key-value part of the store. -/
def kvLookup (kv : List (String × KeyEntry)) (key : String) : Option KeyEntry :=
  match kv with
  | [] => none
  | (k, e) :: rest => if k = key then some e else kvLookup rest key

/-- Assoc-list overwrite (or insert) for the key-value part of the store. -/
def kvSet (kv : List (String × KeyEntry)) (key : String) (e : KeyEntry) :
    List (String × KeyEntry) :=
  match kv with
  | [] => [(key, e)]
  | (k, e0) :: rest =>
      if k = key then (k, e) :: rest else (k, e0) :: kvSet rest key e

/-- Assoc-list delete for the key-value part of the store. -/
def kvDelete (kv : List (String × KeyEntry)) (key : String) :
    List (String × KeyEntry) :=
  match kv with
  | [] => []
  | (k, e0) :: rest =>
      if k = key then rest else (k, e0) :: kvDelete rest key

/-- What `GET key` returns at time `now`: the stored value while the key is
live (strictly before its expiry), else nil. -/
def liveGet (st : RedisState) (key : String) (now : Nat) : Option String :=
  match kvLookup st.kv key with
  | none => none
  | some e => if now < e.expiresAt then some e.value else none

/-- The Redis key used for a leader lock, `f"leader_lock:{lock_name}"`. -/
def leaderKey (lock_name : String) : String :=
  "leader_lock:" ++ lock_name

/-- `RedisManager.acquire_leader_lock`.  Absent client: returns `True`
("Single instance, always leader").  Failing client: the `except` branch
returns `False`.  Reachable store: `SET key instance_id NX EX ttl`, which
succeeds iff the key is absent or expired. -/
def acquire_leader_lock (view : RedisView) (instance_id lock_name : String)
    (ttl now : Nat) : Bool × RedisView :=
  match view with
  | .absent => (true, .absent)
  | .failing => (false, .failing)
  | .ok st =>
      let key := leaderKey lock_name
      match liveGet st key now with
      | some _ => (false, .ok st)
      | none =>
          (true, .ok { st with kv := kvSet st.kv key ⟨instance_id, now + ttl⟩ })

/-- `RedisManager.is_leader`.  Absent client: `True`.  Failing client:
`False`.  Reachable store: `GET` the key and compare with the caller's
instance id. -/
def is_leader (view : RedisView) (instance_id lock_name : String)
    (now : Nat) : Bool :=
  match view with
  | .absent => true
  | .failing => false
  | .ok st => liveGet st (leaderKey lock_name) now == some instance_id

/-- The Lua script `renew_leader_lock` sends with EVAL, as one atomic store
operation: if the key's current value equals the caller's instance id,
extend the expiry (`EXPIRE key ttl` returns 1), else return 0 and leave the
store untouched. -/
def renewScript (st : RedisState) (key instance_id : String) (ttl now : Nat) :
    Nat × RedisState :=
  if liveGet st key now = some instance_id then
    (1, { st with kv := kvSet st.kv key ⟨instance_id, now + ttl⟩ })
  else
    (0, st)

/-- The Lua script `release_leader_lock` (and `release_lock`) sends with
EVAL, as one atomic store operation: delete the key only when its current
value equals the caller's instance id. -/
def releaseScript (st : RedisState) (key instance_id : String) (now : Nat) :
    Nat × RedisState :=
  if liveGet st key now = some instance_id then
    (1, { st with kv := kvDelete st.kv key })
  else
    (0, st)

/-- `RedisManager.renew_leader_lock`.  Absent client: `True`.  Failing
client: `False`.  Reachable store: one EVAL of `renewScript`; the boolean
result is the script's return value. -/
def renew_leader_lock (view : RedisView) (instance_id lock_name : String)
    (ttl now : Nat) : Bool × RedisView :=
  match view with
  | .absent => (true, .absent)
  | .failing => (false, .failing)
  | .ok st =>
      let (r, st') := renewScript st (leaderKey lock_name) instance_id ttl now
      (r ≠ 0, .ok st')

/-- `RedisManager.release_leader_lock`.  Returns nothing in the source; the
modelled result is the store after the conditional delete. -/
def release_leader_lock (view : RedisView) (instance_id lock_name : String)
    (now : Nat) : RedisView :=
  match view with
  | .absent => .absent
  | .failing => .failing
  | .ok st =>
      let (_, st') := releaseScript st (leaderKey lock_name) instance_id now
      .ok st'

/-- The store round trips `renew_leader_lock` makes on a reachable store:
a single `client.eval` call (the owner check and the expiry extension are
inside that one script). -/
def renew_leader_lock_roundTrips : Nat := 1

/-- The store round trips `release_leader_lock` makes on a reachable store:
a single `client.eval` call. -/
def release_leader_lock_roundTrips : Nat := 1

/-! ### Cross-instance rate limiting (`check_rate_limit`)

The sorted set under `key` is modelled as the list of member scores (the
member string `str(now)` determines the score `now`, so equal timestamps
collapse to one member, as `ZADD` overwrites).  The pipeline runs, in
order: `ZREMRANGEBYSCORE key 0 window_start`, `ZCARD key`,
`ZADD key {str(now): now}`, `EXPIRE key window` (the TTL set by EXPIRE is
not modelled further; no claim depends on the set's own expiry). -/

def zsLookup (zs : List (String × List ℚ)) (key : String) : List ℚ :=
  match zs with
  | [] => []
  | (k, l) :: rest => if k = key then l else zsLookup rest key

def zsSet (zs : List (String × List ℚ)) (key : String) (l : List ℚ) :
    List (String × List ℚ) :=
  match zs with
  | [] => [(key, l)]
  | (k, l0) :: rest =>
      if k = key then (k, l) :: rest else (k, l0) :: zsSet rest key l

/-- `ZREMRANGEBYSCORE key 0 window_start`: drop every score in
`[0, window_start]` (inclusive range, as in Redis). -/
def zremrangebyscore (l : List ℚ) (lo hi : ℚ) : List ℚ :=
  l.filter (fun t => ¬ (lo ≤ t ∧ t ≤ hi))

/-- `ZADD key {str(now): now}`: insert the member if not present (a present
member keeps its score, which here equals the member). -/
def zadd (l : List ℚ) (now : ℚ) : List ℚ :=
  if now ∈ l then l else l ++ [now]

/-- `RedisManager.check_rate_limit`.  Absent client or failing pipeline:
`(True, limit)` (fail open).  Reachable store: the pipeline above, with
`allowed = current_count < limit` and
`remaining = max(0, limit - current_count - 1)` where `current_count` is
the cardinality after the trim but before the `ZADD`. -/
def check_rate_limit (view : RedisView) (key : String) (limit : Nat)
    (window now : ℚ) : (Bool × ℤ) × RedisView :=
  match view with
  | .absent => ((true, (limit : ℤ)), .absent)
  | .failing => ((true, (limit : ℤ)), .failing)
  | .ok st =>
      let pruned := zremrangebyscore (zsLookup st.zsets key) 0 (now - window)
      let current_count := pruned.length
      let st' := { st with zsets := zsSet st.zsets key (zadd pruned now) }
      ((decide (current_count < limit),
        max 0 ((limit : ℤ) - (current_count : ℤ) - 1)), .ok st')

/-! ## History store model (steam_history.py)

`SteamPriceHistory` issues SQL through an asyncpg pool.  Each database
round trip a method makes is one `DbOp`; a statement's text and its bound
parameters are kept separate, exactly as the source passes them to
`conn.execute` / `conn.fetch` / `conn.fetchrow`.  asyncpg outside an
explicit `conn.transaction()` block runs each statement in its own
implicit transaction, so a `BEGIN`/`COMMIT` pair would appear as explicit
ops (`beginTransaction` / `commit`) only if the source opened one. -/

inductive SqlValue where
  | vInt (i : ℤ)
  | vStr (s : String)
  | vTime (t : Nat)
  | vNull
  deriving DecidableEq, Repr

inductive DbOp where
  | beginTransaction
  | commit
  | execute (sql : String) (params : List SqlValue)
  | fetchRow (sql : String) (params : List SqlValue)
  | fetch (sql : String) (params : List SqlValue)
  deriving DecidableEq, Repr

/-- Whether `pat` is a prefix of `text` (structural, so kernel-reducible). -/
def startsWithChars : List Char → List Char → Bool
  | [], _ => true
  | _ :: _, [] => false
  | p :: ps, c :: cs => p = c && startsWithChars ps cs

/-- Whether `pat` occurs anywhere in `text`. -/
def containsChars (pat : List Char) : List Char → Bool
  | [] => startsWithChars pat []
  | c :: cs => startsWithChars pat (c :: cs) || containsChars pat cs

/-- Whether a statement's text asks for a row lock. -/
def usesForUpdate (sql : String) : Bool :=
  containsChars ("FOR UPDATE").data sql.data

/-- The `steam_price_summary` row as the source reads and writes it. -/
structure SummaryRow where
  first_seen : Nat
  last_seen : Nat
  min_discount : Option ℤ
  min_discount_date : Option Nat
  last_discount : Option ℤ
  last_discount_date : Option Nat
  deriving DecidableEq, Repr

/-- `discount_percent if discount_percent > 0 else None`. -/
def posOpt (d : ℤ) : Option ℤ :=
  if 0 < d then some d else none

/-- The `current_min is None or discount_percent < current_min` test. -/
def minImproves (current : Option ℤ) (d : ℤ) : Bool :=
  match current with
  | none => true
  | some m => d < m

/-- The snapshot INSERT of `save_price_snapshot`. -/
def snapshotInsertSql : String :=
  "INSERT INTO steam_price_history (appid, fetched_at, cc, price_final, price_initial, discount_percent, currency) VALUES ($1, NOW(), $2, $3, $4, $5, $6)"

/-- The summary read of `_update_summary` (no FOR UPDATE clause in the
source text). -/
def summarySelectSql : String :=
  "SELECT * FROM steam_price_summary WHERE appid = $1"

/-- The summary INSERT of `_update_summary`: note `$2` (now) is bound to
`first_seen`, `last_seen` and both date columns. -/
def summaryInsertSql : String :=
  "INSERT INTO steam_price_summary (appid, first_seen, last_seen, min_discount, min_discount_date, last_discount, last_discount_date) VALUES ($1, $2, $2, $3, $2, $4, $2)"

/-- The dynamic UPDATE of `_update_summary`: field list and parameter list
built exactly as the source does with `update_fields`, `params` and
`param_idx`. -/
def summary_update_query (appid : ℤ) (row : SummaryRow) (d : ℤ) (now : Nat) :
    String × List SqlValue :=
  let fields1 := ["last_seen = $2"]
  let params1 : List SqlValue := [.vInt appid, .vTime now]
  let idx1 : Nat := 3
  let (fields2, params2, _) :=
    if 0 < d then
      let (fa, pa, ia) :=
        if minImproves row.min_discount d then
          (fields1 ++ ["min_discount = $" ++ toString idx1,
                       "min_discount_date = $" ++ toString (idx1 + 1)],
           params1 ++ [SqlValue.vInt d, SqlValue.vTime now], idx1 + 2)
        else (fields1, params1, idx1)
      (fa ++ ["last_discount = $" ++ toString ia,
              "last_discount_date = $" ++ toString (ia + 1)],
       pa ++ [SqlValue.vInt d, SqlValue.vTime now], ia + 2)
    else (fields1, params1, idx1)
  ("UPDATE steam_price_summary SET " ++ String.intercalate ", " fields2 ++
     " WHERE appid = $1", params2)

/-- How an optional Python int is bound as a parameter (`None` → NULL). -/
def sqlOfOptInt : Option ℤ → SqlValue
  | none => .vNull
  | some i => .vInt i

/-- The database round trips `_update_summary` makes, given what the
summary SELECT found. -/
def update_summary_ops (appid : ℤ) (d : ℤ) (now : Nat)
    (existing : Option SummaryRow) : List DbOp :=
  .fetchRow summarySelectSql [.vInt appid] ::
    match existing with
    | none =>
        [.execute summaryInsertSql
          [.vInt appid, .vTime now, sqlOfOptInt (posOpt d),
           sqlOfOptInt (posOpt d)]]
    | some row =>
        let (sql, params) := summary_update_query appid row d now
        [.execute sql params]

/-- The database round trips of `save_price_snapshot`: acquire a pool
connection, run the snapshot INSERT, then call `_update_summary` on the
same connection.  No transaction block is opened in the source. -/
def save_price_snapshot_ops (appid : ℤ) (cc : String)
    (price_final price_initial d : ℤ) (currency : String) (now : Nat)
    (existing : Option SummaryRow) : List DbOp :=
  .execute snapshotInsertSql
      [.vInt appid, .vStr cc, .vInt price_final, .vInt price_initial,
       .vInt d, .vStr currency] ::
    update_summary_ops appid d now existing

/-- The state transformation `_update_summary` performs on the summary row
(the semantics of its INSERT-or-UPDATE, with `now = datetime.utcnow()`). -/
def update_summary_row (st : Option SummaryRow) (d : ℤ) (now : Nat) :
    SummaryRow :=
  match st with
  | none =>
      { first_seen := now, last_seen := now,
        min_discount := posOpt d, min_discount_date := some now,
        last_discount := posOpt d, last_discount_date := some now }
  | some row =>
      if 0 < d then
        let improves := minImproves row.min_discount d
        { row with
            last_seen := now,
            min_discount := if improves then some d else row.min_discount,
            min_discount_date :=
              if improves then some now else row.min_discount_date,
            last_discount := some d,
            last_discount_date := some now }
      else
        { row with last_seen := now }

/-- Single-threaded replay of a sequence of `(discount, observed-at)`
observations for one item through `_update_summary`, starting from no
summary row. -/
def replay_summary (obs : List (ℤ × Nat)) : Option SummaryRow :=
  obs.foldl (fun st o => some (update_summary_row st o.1 o.2)) none

/-- The `min_discount` column of an optional summary row. -/
def summaryMin (st : Option SummaryRow) : Option ℤ :=
  match st with
  | none => none
  | some row => row.min_discount

/-- Minimum of two optional values, `none` acting as "no value yet". -/
def combineMin (a b : Option ℤ) : Option ℤ :=
  match a, b with
  | none, r => r
  | some x, none => some x
  | some x, some y => some (min x y)

/-- The minimum of the observations with positive discount, `none` if
there are none — the value the specification calls `min(d1..dn)` among
observations with `discount > 0`. -/
def minPos : List ℤ → Option ℤ
  | [] => none
  | d :: ds => combineMin (posOpt d) (minPos ds)

/-- Clock invariant carried through a replay: any present summary row has
`first_seen ≤ last_seen ≤ t`. -/
def SummaryClock (st : Option SummaryRow) (t : Nat) : Prop :=
  ∀ row, st = some row → row.first_seen ≤ row.last_seen ∧ row.last_seen ≤ t

/-- The observation times are non-decreasing, starting no earlier than
`t` (single-threaded replay: `datetime.utcnow()` never goes back). -/
def timesMono : Nat → List (ℤ × Nat) → Prop
  | _, [] => True
  | t, o :: rest => t ≤ o.2 ∧ timesMono o.2 rest

instance timesMonoDec : (t : Nat) → (l : List (ℤ × Nat)) →
    Decidable (timesMono t l)
  | _, [] => .isTrue trivial
  | t, o :: rest =>
      have := timesMonoDec o.2 rest
      inferInstanceAs (Decidable (t ≤ o.2 ∧ timesMono o.2 rest))

/-! ### Interval-bounded queries (SQL-injection surface)

Each of the three interval-bounded reads/deletes is embedded as the pair
the source hands to asyncpg: the statement text and the bound parameter
list.  The day/hour count reaches the database only as `str(days)` /
`str(hours_since_last)` in the parameter list. -/

/-- The query text of `get_price_history` (constant in the source). -/
def get_price_history_sql : String :=
  "SELECT appid, fetched_at, cc, price_final, price_initial, discount_percent, currency FROM steam_price_history WHERE appid = $1 AND cc = $2 AND fetched_at >= NOW() - ($3 || ' days')::interval ORDER BY fetched_at DESC"

/-- `get_price_history`: statement text and bound parameters. -/
def get_price_history_query (appid : ℤ) (cc : String) (days : ℤ) :
    String × List SqlValue :=
  (get_price_history_sql, [.vInt appid, .vStr cc, .vStr (toString days)])

/-- The query text of `cleanup_old_history` (constant in the source). -/
def cleanup_old_history_sql : String :=
  "DELETE FROM steam_price_history WHERE fetched_at < NOW() - ($1 || ' days')::interval AND discount_percent = 0"

/-- `cleanup_old_history`: statement text and bound parameters. -/
def cleanup_old_history_query (days : ℤ) : String × List SqlValue :=
  (cleanup_old_history_sql, [.vStr (toString days)])

/-- The query text of `get_games_needing_notification` (constant in the
source). -/
def get_games_needing_notification_sql : String :=
  "SELECT t.discord_id, t.appid, t.game_name, t.guild_id, t.notify_threshold, h.discount_percent, h.price_final, h.price_initial, h.currency FROM steam_tracked_games t INNER JOIN LATERAL (SELECT * FROM steam_price_history WHERE appid = t.appid AND cc = 'us' AND discount_percent >= t.notify_threshold ORDER BY fetched_at DESC LIMIT 1) h ON TRUE WHERE t.is_active = TRUE AND (t.last_notified IS NULL OR t.last_notified < NOW() - ($1 || ' hours')::interval)"

/-- `get_games_needing_notification`: statement text and bound
parameters. -/
def get_games_needing_notification_query (hours_since_last : ℤ) :
    String × List SqlValue :=
  (get_games_needing_notification_sql, [.vStr (toString hours_since_last)])

/-! ## HTTP client model (http_session.py)

`HTTPSessionManager.get` is a `while attempt <= max_retries` loop over one
origin (`urlparse(url).netloc`), driven by the environment `responses`
(what the server answers on the n-th outbound request of this call, or a
transport error).  The model records, per call: the result, how many
outbound requests were made, each sleep performed, and the cooldown map
`self._rate_limits` after the call.  Wall-clock time is a rational that
advances by exactly the sleeps. -/

structure HttpConfig where
  max_retries : Nat
  base_delay : ℚ
  max_delay : ℚ
  deriving DecidableEq, Repr

/-- The constructor defaults `max_retries=3, base_delay=1.0,
max_delay=60.0`. -/
def defaultHttpConfig : HttpConfig :=
  { max_retries := 3, base_delay := 1, max_delay := 60 }

/-- `HTTPSessionManager._calculate_backoff`. -/
def calculate_backoff (cfg : HttpConfig) (attempt : Nat) : ℚ :=
  min (cfg.base_delay * 2 ^ attempt) cfg.max_delay

/-- What the server does on one outbound request: a response with a status
and an optional integer Retry-After header, or a transport error
(`aiohttp.ClientError` / `asyncio.TimeoutError`). -/
inductive Attempt where
  | resp (status : Nat) (retryAfter : Option Nat)
  | netError
  deriving DecidableEq, Repr

inductive GetResult where
  | response (status : Nat)
  | rateLimitedNone
  | raised
  | fellThrough
  deriving DecidableEq, Repr

structure GetOut where
  result : GetResult
  requests : Nat
  sleeps : List ℚ
  rateLimits : List (String × ℚ)
  deriving DecidableEq, Repr

def rlLookup (rl : List (String × ℚ)) (domain : String) : Option ℚ :=
  match rl with
  | [] => none
  | (k, t) :: rest => if k = domain then some t else rlLookup rest domain

def rlSet (rl : List (String × ℚ)) (domain : String) (t : ℚ) :
    List (String × ℚ) :=
  match rl with
  | [] => [(domain, t)]
  | (k, t0) :: rest =>
      if k = domain then (k, t) :: rest else (k, t0) :: rlSet rest domain t

def rlDelete (rl : List (String × ℚ)) (domain : String) :
    List (String × ℚ) :=
  match rl with
  | [] => []
  | (k, t0) :: rest =>
      if k = domain then rest else (k, t0) :: rlDelete rest domain

/-- `HTTPSessionManager._check_rate_limit`: `False` while the domain's
cooldown lies in the future; an expired entry is deleted and the check
passes. -/
def http_check_rate_limit (rl : List (String × ℚ)) (domain : String)
    (now : ℚ) : Bool × List (String × ℚ) :=
  match rlLookup rl domain with
  | none => (true, rl)
  | some t => if now < t then (false, rl) else (true, rlDelete rl domain)

/-- `HTTPSessionManager._set_rate_limit`: cooldown until
`utcnow() + retry_after`. -/
def http_set_rate_limit (rl : List (String × ℚ)) (domain : String)
    (now : ℚ) (retry_after : Nat) : List (String × ℚ) :=
  rlSet rl domain (now + (retry_after : ℚ))

/-- One more outbound request, then `r`, with a sleep of `d` between. -/
def afterRetry (d : ℚ) (r : GetOut) : GetOut :=
  { r with requests := r.requests + 1, sleeps := d :: r.sleeps }

/-- The retry loop of `HTTPSessionManager.get`.  The fuel argument counts
the iterations the `while attempt <= max_retries` guard still admits;
`fellThrough` is the `return None` after the loop, unreachable from the
entry point. -/
def getLoop (cfg : HttpConfig) (retry_on_429 : Bool)
    (responses : Nat → Attempt) (domain : String) :
    Nat → Nat → ℚ → List (String × ℚ) → GetOut
  | 0, _, _, rl => ⟨.fellThrough, 0, [], rl⟩
  | fuel + 1, attempt, now, rl =>
      match responses attempt with
      | .netError =>
          if attempt < cfg.max_retries then
            let d := calculate_backoff cfg attempt
            afterRetry d
              (getLoop cfg retry_on_429 responses domain fuel (attempt + 1)
                (now + d) rl)
          else ⟨.raised, 1, [], rl⟩
      | .resp status retryAfter =>
          if status = 429 then
            let retry_after := retryAfter.getD 60
            if retry_on_429 ∧ attempt < cfg.max_retries then
              let rl' := http_set_rate_limit rl domain now retry_after
              let d := min (retry_after : ℚ) cfg.max_delay
              afterRetry d
                (getLoop cfg retry_on_429 responses domain fuel (attempt + 1)
                  (now + d) rl')
            else ⟨.response status, 1, [], rl⟩
          else if status < 500 then ⟨.response status, 1, [], rl⟩
          else if attempt < cfg.max_retries then
            let d := calculate_backoff cfg attempt
            afterRetry d
              (getLoop cfg retry_on_429 responses domain fuel (attempt + 1)
                (now + d) rl)
          else ⟨.response status, 1, [], rl⟩

/-- `HTTPSessionManager.get`: the entry cooldown check, then the retry
loop starting at `attempt = 0`. -/
def http_get (cfg : HttpConfig) (retry_on_429 : Bool)
    (responses : Nat → Attempt) (domain : String) (now : ℚ)
    (rl : List (String × ℚ)) : GetOut :=
  match http_check_rate_limit rl domain now with
  | (false, rl') => ⟨.rateLimitedNone, 0, [], rl'⟩
  | (true, rl') =>
      getLoop cfg retry_on_429 responses domain (cfg.max_retries + 1) 0 now
        rl'

/-! ## Background tasks model (steam_tasks.py)

Each periodic job body (`update_prices`, `check_discounts`,
`cleanup_old_data`) is embedded as the list of effectful actions one tick
performs, as a function of what the environment answers (database rows,
price lookups, user lookups).  `leaderOp` is the action a leadership
acquisition or check against the coordination store would be; the job
bodies of the source contain no such call, so no tick ever emits it. -/

structure PriceData where
  error : Bool
  is_free : Bool
  price_final : ℤ
  price_initial : ℤ
  discount_percent : ℤ
  currency : String
  deriving DecidableEq, Repr

structure GameRow where
  appid : ℤ
  game_name : String
  deriving DecidableEq, Repr

structure TrackRow where
  discord_id : ℤ
  appid : ℤ
  game_name : String
  notify_threshold : ℤ
  deriving DecidableEq, Repr

inductive TaskAction where
  | dbFetch (sql : String)
  | fetchPrice (appid : ℤ)
  | saveSnapshot (appid : ℤ) (cc : String)
      (price_final price_initial discount : ℤ) (currency : String)
  | sleep (seconds : ℚ)
  | leaderOp (lock_name : String)
  | fetchUser (discord_id : ℤ)
  | sendDM (discord_id : ℤ) (appid : ℤ) (discount : ℤ)
  | cleanupHistory (days : ℤ)
  deriving DecidableEq, Repr

def price_update_games_sql : String :=
  "SELECT DISTINCT appid, game_name FROM games WHERE appid IS NOT NULL LIMIT 500"

/-- The per-game body of `update_prices`: fetch the price; save a snapshot
when the lookup reported no error and the game is not free; sleep 2s. -/
def price_update_game_actions (g : GameRow) (pd : PriceData) :
    List TaskAction :=
  [.fetchPrice g.appid] ++
    (if ¬ pd.error ∧ ¬ pd.is_free then
      [.saveSnapshot g.appid "us" pd.price_final pd.price_initial
        pd.discount_percent pd.currency]
     else []) ++
    [.sleep 2]

/-- One tick of the bulk price-refresh job (`update_prices`, every 12h):
fetch the tracked-game rows, then process each game.  The tick takes no
leadership input and performs no leadership operation. -/
def update_prices_tick (games : List GameRow) (priceOf : ℤ → PriceData) :
    List TaskAction :=
  .dbFetch price_update_games_sql ::
    games.flatMap (fun g => price_update_game_actions g (priceOf g.appid))

def discount_tracked_sql : String :=
  "SELECT DISTINCT ON (appid) discord_id, appid, game_name, notify_threshold FROM steam_tracked_games ORDER BY appid, created_at DESC"

def discount_last_notify_sql : String :=
  "SELECT MAX(fetched_at) FROM steam_price_history WHERE appid = $1 AND discount_percent >= $2 AND fetched_at >= NOW() - INTERVAL '24 hours'"

/-- The per-subscription body of `check_discounts`. -/
def discount_track_actions (t : TrackRow) (pd : PriceData)
    (lastNotify : Option Nat) (userFound : Bool) : List TaskAction :=
  [.fetchPrice t.appid] ++
    (if pd.discount_percent ≥ t.notify_threshold then
      [.dbFetch discount_last_notify_sql] ++
        (if lastNotify = none then
          [.fetchUser t.discord_id] ++
            (if userFound then
              [.sendDM t.discord_id t.appid pd.discount_percent]
             else [])
         else [])
     else []) ++
    [.sleep 3]

/-- One tick of the discount-notification sweep (`check_discounts`, every
6h).  An unset or unresolvable notification channel makes the tick return
early; otherwise it fetches the tracked rows and processes each.  The
tick takes no leadership input and performs no leadership operation. -/
def check_discounts_tick (channel_configured channel_found : Bool)
    (tracked : List TrackRow) (priceOf : ℤ → PriceData)
    (lastNotifyOf : ℤ → Option Nat) (userFoundOf : ℤ → Bool) :
    List TaskAction :=
  if ¬ channel_configured then []
  else if ¬ channel_found then []
  else
    .dbFetch discount_tracked_sql ::
      tracked.flatMap (fun t =>
        discount_track_actions t (priceOf t.appid) (lastNotifyOf t.appid)
          (userFoundOf t.discord_id))

/-- One tick of the retention-cleanup job (`cleanup_old_data`, daily at
03:00 UTC): `cleanup_old_history(days=730)`.  The tick takes no leadership
input and performs no leadership operation. -/
def cleanup_tick : List TaskAction :=
  [.cleanupHistory 730]

/-! ## Configuration model (config.py) -/

/-- The three required environment values `Config.validate` checks
(`os.getenv` with default the empty string). -/
structure ConfigEnv where
  discord_token : String
  database_url : String
  steam_api_key : String
  deriving DecidableEq, Repr

/-- The error list `Config.validate` accumulates. -/
def validate_errors (e : ConfigEnv) : List String :=
  (if e.discord_token = "" then ["DISCORD_TOKEN is required"] else []) ++
    (if e.database_url = "" then ["DATABASE_URL is required"] else []) ++
    (if e.steam_api_key = "" then
      ["STEAM_API_KEY is required (get from https://steamcommunity.com/dev/apikey)"]
     else [])

/-- Whether `Config.validate` raises `ValueError` (`if errors: raise`). -/
def validate_raises (e : ConfigEnv) : Bool :=
  ¬ (validate_errors e).isEmpty

/-- What the module-level `try: config.validate() except ValueError`
block at import time leads to. -/
structure ImportOutcome where
  warning_printed : Bool
  import_completes : Bool
  deriving DecidableEq, Repr

/-- The import-time validation in config.py: a raised `ValueError` is
caught and printed as a warning; the module import completes either
way, so startup proceeds. -/
def config_module_import (e : ConfigEnv) : ImportOutcome :=
  if validate_raises e then
    { warning_printed := true, import_completes := true }
  else
    { warning_printed := false, import_completes := true }

/-- The sorted sets of a view (for reading the store a call returned). -/
def viewZsets : RedisView → List (String × List ℚ)
  | .ok st => st.zsets
  | _ => []

/-! ## Helper lemmas -/

theorem combineMin_none_right (a : Option ℤ) : combineMin a none = a := by
  cases a <;> rfl

theorem combineMin_assoc (a b c : Option ℤ) :
    combineMin (combineMin a b) c = combineMin a (combineMin b c) := by
  cases a <;> cases b <;> cases c <;> simp [combineMin, min_assoc]

/-- The `min_discount` column after one `_update_summary` step is the
minimum of the previous value and the new positive observation. -/
theorem update_summary_row_min (st : Option SummaryRow) (d : ℤ) (now : Nat) :
    (update_summary_row st d now).min_discount =
      combineMin (summaryMin st) (posOpt d) := by
  cases st with
  | none => rfl
  | some row =>
      by_cases hd : 0 < d
      · have hp : posOpt d = some d := by simp [posOpt, hd]
        cases hmin : row.min_discount with
        | none =>
            simp [update_summary_row, hd, minImproves, hmin, summaryMin,
              combineMin, hp]
        | some m =>
            by_cases hdm : d < m
            · simp [update_summary_row, hd, minImproves, hmin, summaryMin,
                combineMin, hp, hdm, min_eq_right hdm.le]
            · simp [update_summary_row, hd, minImproves, hmin, summaryMin,
                combineMin, hp, hdm, min_eq_left (not_lt.mp hdm)]
      · have hp : posOpt d = none := by simp [posOpt, hd]
        cases hmin : row.min_discount <;>
          simp [update_summary_row, hd, summaryMin, hmin, combineMin, hp]

theorem foldl_update_summary_min (obs : List (ℤ × Nat)) :
    ∀ st : Option SummaryRow,
      summaryMin
          (obs.foldl (fun s o => some (update_summary_row s o.1 o.2)) st) =
        combineMin (summaryMin st) (minPos (obs.map Prod.fst)) := by
  induction obs with
  | nil => intro st; simp [minPos, combineMin_none_right]
  | cons o rest ih =>
      intro st
      simp only [List.foldl_cons, List.map_cons, minPos]
      rw [ih (some (update_summary_row st o.1 o.2))]
      have h : summaryMin (some (update_summary_row st o.1 o.2)) =
          combineMin (summaryMin st) (posOpt o.1) :=
        update_summary_row_min st o.1 o.2
      rw [h, combineMin_assoc]

theorem update_summary_row_min_mono (st : Option SummaryRow) (d : ℤ)
    (now : Nat) (m : ℤ) (hm : summaryMin st = some m) :
    ∃ m2, (update_summary_row st d now).min_discount = some m2 ∧ m2 ≤ m := by
  rw [update_summary_row_min, hm]
  cases hp : posOpt d with
  | none => exact ⟨m, rfl, le_refl m⟩
  | some x => exact ⟨min m x, rfl, min_le_left m x⟩

theorem update_summary_row_clock (st : Option SummaryRow) (t : Nat) (d : ℤ)
    (now : Nat) (hst : SummaryClock st t) (htn : t ≤ now) :
    SummaryClock (some (update_summary_row st d now)) now := by
  intro row' h
  injection h with h2
  subst h2
  cases st with
  | none => exact ⟨le_refl now, le_refl now⟩
  | some row =>
      obtain ⟨h1, h2⟩ := hst row rfl
      by_cases hd : 0 < d <;>
        simp [update_summary_row, hd] <;>
        exact le_trans h1 (le_trans h2 htn)

theorem replay_summary_clock (obs : List (ℤ × Nat)) :
    ∀ (st : Option SummaryRow) (t : Nat), SummaryClock st t →
      timesMono t obs →
      ∃ t2, SummaryClock
        (obs.foldl (fun s o => some (update_summary_row s o.1 o.2)) st) t2 := by
  induction obs with
  | nil => intro st t h _; exact ⟨t, h⟩
  | cons o rest ih =>
      intro st t h hm
      exact ih (some (update_summary_row st o.1 o.2)) o.2
        (update_summary_row_clock st t o.1 o.2 h hm.1) hm.2

theorem timesMono_take (obs : List (ℤ × Nat)) :
    ∀ (k : Nat) (t : Nat), timesMono t obs → timesMono t (obs.take k) := by
  induction obs with
  | nil => intro k t h; rw [List.take_nil]; trivial
  | cons o rest ih =>
      intro k t h
      cases k with
      | zero => trivial
      | succ k2 => exact ⟨h.1, ih k2 o.2 h.2⟩

theorem leaderOp_not_mem_price_game_actions (l : String) (g : GameRow)
    (pd : PriceData) :
    TaskAction.leaderOp l ∉ price_update_game_actions g pd := by
  by_cases h : ¬ pd.error ∧ ¬ pd.is_free <;>
    simp [price_update_game_actions, h]

theorem leaderOp_not_mem_discount_track_actions (l : String) (t : TrackRow)
    (pd : PriceData) (lastNotify : Option Nat) (userFound : Bool) :
    TaskAction.leaderOp l ∉
      discount_track_actions t pd lastNotify userFound := by
  by_cases h1 : pd.discount_percent ≥ t.notify_threshold <;>
    by_cases h2 : lastNotify = none <;>
    by_cases h3 : userFound = true <;>
    simp_all [discount_track_actions]

theorem zsLookup_zsSet (zs : List (String × List ℚ)) (key : String)
    (l : List ℚ) : zsLookup (zsSet zs key l) key = l := by
  induction zs with
  | nil => simp [zsSet, zsLookup]
  | cons p rest ih =>
      by_cases h : p.1 = key <;> simp [zsSet, zsLookup, h, ih]

theorem mem_zadd_self (l : List ℚ) (now : ℚ) : now ∈ zadd l now := by
  unfold zadd
  split
  · assumption
  · simp

/-! ## Claim theorems -/

/-- C1, counterexample.  The claim says an unreachable store (client
absent or failed) makes `acquire_leader_lock` and `is_leader` report
non-leadership.  With the client absent, both report leadership. -/
theorem redis_absent_reports_leader_cex :
    ¬ ((acquire_leader_lock .absent "inst1" "steam_price_update" 30 0).1
          = false ∧
       is_leader .absent "inst1" "steam_price_update" 0 = false) := by
  decide

/-- C1, amended.  With the client absent (no Redis configured), every
leadership operation reports leadership (`True`, single-instance mode);
with the client present but the operation failing, leadership operations
report non-leadership (fail closed); `check_rate_limit` reports the
request allowed with the full budget remaining in both cases, for every
lock name, key, limit and window. -/
theorem redis_unreachable_semantics :
    ∀ (instance_id lock_name key : String) (ttl now limit : Nat)
      (window nowq : ℚ),
      acquire_leader_lock .absent instance_id lock_name ttl now =
          (true, .absent) ∧
      is_leader .absent instance_id lock_name now = true ∧
      renew_leader_lock .absent instance_id lock_name ttl now =
          (true, .absent) ∧
      acquire_leader_lock .failing instance_id lock_name ttl now =
          (false, .failing) ∧
      is_leader .failing instance_id lock_name now = false ∧
      renew_leader_lock .failing instance_id lock_name ttl now =
          (false, .failing) ∧
      check_rate_limit .absent key limit window nowq =
          ((true, (limit : ℤ)), .absent) ∧
      check_rate_limit .failing key limit window nowq =
          ((true, (limit : ℤ)), .failing) := by
  intro instance_id lock_name key ttl now limit window nowq
  exact ⟨rfl, rfl, rfl, rfl, rfl, rfl, rfl, rfl⟩

/-- C4.  A caller whose instance id differs from the value currently
stored under the lease key cannot renew: `renew_leader_lock` returns
false and the store (owner and expiry) is unchanged, and the owner check
plus expiry extension is one atomic store round trip (a single EVAL of
the ownership script). -/
theorem renew_nonowner_is_noop (st : RedisState)
    (caller owner lock_name : String) (ttl now : Nat)
    (hcur : liveGet st (leaderKey lock_name) now = some owner)
    (hne : owner ≠ caller) :
    renew_leader_lock (.ok st) caller lock_name ttl now = (false, .ok st) ∧
    renew_leader_lock_roundTrips = 1 := by
  refine ⟨?_, rfl⟩
  have hno : ¬ liveGet st (leaderKey lock_name) now = some caller := by
    rw [hcur]
    intro h
    exact hne (Option.some.injEq .. ▸ h)
  simp [renew_leader_lock, renewScript, hno]

/-- C4, witness: a store whose lease is held by another instance. -/
theorem renew_nonowner_is_noop_witness :
    renew_leader_lock
        (.ok ⟨[("leader_lock:steam_tasks", ⟨"other", 50⟩)], []⟩)
        "me" "steam_tasks" 30 0 =
      (false, .ok ⟨[("leader_lock:steam_tasks", ⟨"other", 50⟩)], []⟩) ∧
    renew_leader_lock_roundTrips = 1 :=
  renew_nonowner_is_noop ⟨[("leader_lock:steam_tasks", ⟨"other", 50⟩)], []⟩
    "me" "other" "steam_tasks" 30 0 (by decide) (by decide)

/-- C10.  `check_rate_limit` on a reachable store always writes the
current timestamp into the key's window set — the resulting store is the
same whatever the limit (and hence whatever the allow/deny verdict), the
timestamp is a member of the new set, and a later check whose window
still covers `now` counts it (it survives that check's trim). -/
theorem rate_limit_records_denied_attempts :
    ∀ (st : RedisState) (key : String) (limit limit2 : Nat)
      (window now : ℚ),
      (check_rate_limit (.ok st) key limit window now).2 =
        .ok { st with zsets := (zsSet st.zsets key
          (zadd (zremrangebyscore (zsLookup st.zsets key) 0 (now - window))
            now)) } ∧
      (check_rate_limit (.ok st) key limit window now).2 =
        (check_rate_limit (.ok st) key limit2 window now).2 ∧
      now ∈ zadd (zremrangebyscore (zsLookup st.zsets key) 0 (now - window))
          now ∧
      (∀ later : ℚ, (0 : ℚ) ≤ now → later - window < now →
        now ∈ zremrangebyscore
          (zsLookup (viewZsets (check_rate_limit (.ok st) key limit window
            now).2) key) 0 (later - window)) := by
  intro st key limit limit2 window now
  refine ⟨rfl, rfl, mem_zadd_self _ now, ?_⟩
  intro later h0 hlt
  have hz : zsLookup (viewZsets (check_rate_limit (.ok st) key limit window
      now).2) key =
      zadd (zremrangebyscore (zsLookup st.zsets key) 0 (now - window)) now := by
    simp only [check_rate_limit, viewZsets]
    exact zsLookup_zsSet st.zsets key _
  rw [hz]
  unfold zremrangebyscore
  rw [List.mem_filter]
  refine ⟨mem_zadd_self _ now, ?_⟩
  simp only [decide_eq_true_eq]
  intro hcon
  exact absurd hcon.2 (not_le.mpr hlt)

/-- C2, counterexample.  The claim says the snapshot insert and the
summary read-update of `save_price_snapshot` run inside one database
transaction with the summary row read under a row lock.  On a concrete
call the trace opens no transaction and the summary SELECT carries no
FOR UPDATE clause. -/
theorem save_snapshot_no_txn_cex :
    DbOp.beginTransaction ∉
        save_price_snapshot_ops 440 "us" 600 1000 40 "USD" 1000 none ∧
    DbOp.fetchRow summarySelectSql [.vInt 440] ∈
        save_price_snapshot_ops 440 "us" 600 1000 40 "USD" 1000 none ∧
    usesForUpdate summarySelectSql = false := by
  decide

/-- C2, amended.  `save_price_snapshot` runs the snapshot INSERT first
and then `_update_summary`'s SELECT and INSERT-or-UPDATE sequentially on
one pooled connection, each statement in its own implicit transaction: no
explicit transaction is opened (no BEGIN/COMMIT in the trace), and the
only row read, the summary SELECT, takes no row lock. -/
theorem save_snapshot_sequential_autocommit :
    ∀ (appid : ℤ) (cc : String) (pf pi d : ℤ) (cur : String) (now : Nat)
      (existing : Option SummaryRow),
      (save_price_snapshot_ops appid cc pf pi d cur now existing).head? =
        some (.execute snapshotInsertSql
          [.vInt appid, .vStr cc, .vInt pf, .vInt pi, .vInt d, .vStr cur]) ∧
      DbOp.beginTransaction ∉
          save_price_snapshot_ops appid cc pf pi d cur now existing ∧
      DbOp.commit ∉ save_price_snapshot_ops appid cc pf pi d cur now existing ∧
      (∀ (sql : String) (params : List SqlValue),
        DbOp.fetchRow sql params ∈
            save_price_snapshot_ops appid cc pf pi d cur now existing →
          sql = summarySelectSql ∧ usesForUpdate sql = false) := by
  intro appid cc pf pi d cur now existing
  refine ⟨rfl, ?_, ?_, ?_⟩
  · cases existing <;>
      simp [save_price_snapshot_ops, update_summary_ops]
  · cases existing <;>
      simp [save_price_snapshot_ops, update_summary_ops]
  · intro sql params hmem
    cases existing <;>
      simp [save_price_snapshot_ops, update_summary_ops] at hmem <;>
      rcases hmem with ⟨hs, _⟩ <;>
      subst hs <;>
      exact ⟨rfl, by decide⟩

/-- C3, counterexample.  The claim says a tick on a non-leader instance
performs no work.  Concretely: the store says another instance holds the
leader lock (`is_leader` is false for this instance), yet the
price-update tick still runs its body and saves a snapshot. -/
theorem tick_runs_despite_nonleader_cex :
    is_leader (.ok ⟨[("leader_lock:steam_tasks", ⟨"other", 100⟩)], []⟩)
        "me" "steam_tasks" 0 = false ∧
    update_prices_tick [⟨440, "Team Fortress 2"⟩]
        (fun _ => ⟨false, false, 600, 1000, 40, "USD"⟩) ≠ [] ∧
    TaskAction.saveSnapshot 440 "us" 600 1000 40 "USD" ∈
      update_prices_tick [⟨440, "Team Fortress 2"⟩]
        (fun _ => ⟨false, false, 600, 1000, 40, "USD"⟩) := by
  decide

/-- C3, amended.  None of the three periodic job bodies consults the
leader lease: no tick ever performs a leadership operation against the
coordination store, and each tick runs its job body unconditionally on
every instance (the price-update tick always starts with the tracked-game
fetch; the cleanup tick always issues the retention delete). -/
theorem ticks_have_no_leader_guard :
    ∀ (lock : String) (games : List GameRow) (priceOf : ℤ → PriceData)
      (channel_configured channel_found : Bool) (tracked : List TrackRow)
      (lastNotifyOf : ℤ → Option Nat) (userFoundOf : ℤ → Bool),
      TaskAction.leaderOp lock ∉ update_prices_tick games priceOf ∧
      TaskAction.leaderOp lock ∉
        check_discounts_tick channel_configured channel_found tracked
          priceOf lastNotifyOf userFoundOf ∧
      TaskAction.leaderOp lock ∉ cleanup_tick ∧
      (update_prices_tick games priceOf).head? =
        some (.dbFetch price_update_games_sql) ∧
      cleanup_tick = [.cleanupHistory 730] := by
  intro lock games priceOf channel_configured channel_found tracked
    lastNotifyOf userFoundOf
  refine ⟨?_, ?_, by simp [cleanup_tick], rfl, rfl⟩
  · intro hmem
    simp only [update_prices_tick, List.mem_cons, List.mem_flatMap] at hmem
    rcases hmem with h | ⟨g, _, h⟩
    · exact absurd h (by simp)
    · exact leaderOp_not_mem_price_game_actions lock g _ h
  · intro hmem
    unfold check_discounts_tick at hmem
    split at hmem
    · simp at hmem
    · split at hmem
      · simp at hmem
      · simp only [List.mem_cons, List.mem_flatMap] at hmem
        rcases hmem with h | ⟨t, _, h⟩
        · exact absurd h (by simp)
        · exact leaderOp_not_mem_discount_track_actions lock t _ _ _ h

/-- C5.  Every interval-bounded query of the history store submits a
constant statement text, independent of the day/hour argument; the bound
reaches the database only as the string parameter `str(days)` /
`str(hours_since_last)` in the parameter list. -/
theorem interval_queries_use_bound_parameters :
    ∀ (appid : ℤ) (cc : String) (days days2 hours hours2 : ℤ),
      (get_price_history_query appid cc days).1 = get_price_history_sql ∧
      (get_price_history_query appid cc days).1 =
        (get_price_history_query appid cc days2).1 ∧
      (get_price_history_query appid cc days).2 =
        [.vInt appid, .vStr cc, .vStr (toString days)] ∧
      (cleanup_old_history_query days).1 = cleanup_old_history_sql ∧
      (cleanup_old_history_query days).1 =
        (cleanup_old_history_query days2).1 ∧
      (cleanup_old_history_query days).2 = [.vStr (toString days)] ∧
      (get_games_needing_notification_query hours).1 =
        get_games_needing_notification_sql ∧
      (get_games_needing_notification_query hours).1 =
        (get_games_needing_notification_query hours2).1 ∧
      (get_games_needing_notification_query hours).2 =
        [.vStr (toString hours)] := by
  intro appid cc days days2 hours hours2
  exact ⟨rfl, rfl, rfl, rfl, rfl, rfl, rfl, rfl, rfl⟩

/-- C6.  With `max_retries=3, base_delay=1, max_delay=8` against an
endpoint that always answers 500, `get` makes exactly 4 outbound requests
(initial plus 3 retries), sleeping `min(base_delay * 2^attempt,
max_delay)` before each retry — 1s, 2s and 4s — for a total backoff wait
of `7 ≤ 7` seconds, and finally returns the 500 response. -/
theorem http_500_makes_four_attempts :
    ∀ (domain : String) (now : ℚ),
      http_get ⟨3, 1, 8⟩ true (fun _ => .resp 500 none) domain now [] =
        ⟨.response 500, 4, [1, 2, 4], []⟩ ∧
      (http_get ⟨3, 1, 8⟩ true (fun _ => .resp 500 none) domain now
          []).sleeps.sum ≤ 7 := by
  intro domain now
  have hb0 : calculate_backoff ⟨3, 1, 8⟩ 0 = 1 := by
    norm_num [calculate_backoff]
  have hb1 : calculate_backoff ⟨3, 1, 8⟩ 1 = 2 := by
    norm_num [calculate_backoff]
  have hb2 : calculate_backoff ⟨3, 1, 8⟩ 2 = 4 := by
    norm_num [calculate_backoff]
  have hrun : http_get ⟨3, 1, 8⟩ true (fun _ => .resp 500 none) domain now
      [] = ⟨.response 500, 4, [1, 2, 4], []⟩ := by
    simp [http_get, http_check_rate_limit, rlLookup, getLoop, afterRetry,
      hb0, hb1, hb2]
  refine ⟨hrun, ?_⟩
  rw [hrun]
  show ([1, 2, 4] : List ℚ).sum ≤ 7
  norm_num

/-- C7, counterexample.  The claim says every GET that receives a 429
marks the origin cooled down, after which calls within the window make no
outbound request.  With `retry_on_429=False` a 429 is returned without
marking the origin, so an immediately following call to the same origin
still issues an outbound request. -/
theorem http_429_no_mark_cex :
    http_get defaultHttpConfig false (fun _ => .resp 429 (some 30))
        "store.steampowered.com" 0 [] =
      ⟨.response 429, 1, [], []⟩ ∧
    (http_get defaultHttpConfig false (fun _ => .resp 429 (some 30))
        "store.steampowered.com" 5 []).requests = 1 := by
  exact ⟨rfl, rfl⟩

/-- C7, amended.  (1) While an origin's cooldown lies in the future,
`get` returns None locally, makes no outbound request and leaves the
cooldown map unchanged.  (2) A 429 received with `retry_on_429` enabled
and retries remaining marks the origin cooled down until `now +
Retry-After` before retrying.  (3) With `retry_on_429` disabled the 429
response is returned and the origin is not marked.  (4) When the
Retry-After header is absent the cooldown uses the constant default of
60 seconds. -/
theorem http_429_cooldown_semantics :
    (∀ (cfg : HttpConfig) (r : Bool) (responses : Nat → Attempt)
       (domain : String) (now t : ℚ) (rl : List (String × ℚ)),
       rlLookup rl domain = some t → now < t →
       http_get cfg r responses domain now rl =
         ⟨.rateLimitedNone, 0, [], rl⟩) ∧
    (∀ (domain : String) (now : ℚ) (ra : Nat),
       http_get defaultHttpConfig true
           (fun a => if a = 0 then .resp 429 (some ra) else .resp 200 none)
           domain now [] =
         ⟨.response 200, 2, [min ((ra : Nat) : ℚ) 60],
          [(domain, now + ((ra : Nat) : ℚ))]⟩) ∧
    (∀ (domain : String) (now : ℚ) (ra : Nat),
       http_get defaultHttpConfig false (fun _ => .resp 429 (some ra))
           domain now [] =
         ⟨.response 429, 1, [], []⟩) ∧
    (∀ (domain : String) (now : ℚ),
       http_get defaultHttpConfig true
           (fun a => if a = 0 then .resp 429 none else .resp 200 none)
           domain now [] =
         ⟨.response 200, 2, [min ((60 : Nat) : ℚ) 60],
          [(domain, now + ((60 : Nat) : ℚ))]⟩) := by
  refine ⟨?_, ?_, ?_, ?_⟩
  · intro cfg r responses domain now t rl hl hnow
    simp [http_get, http_check_rate_limit, hl, hnow]
  · intro domain now ra
    rfl
  · intro domain now ra
    rfl
  · intro domain now
    rfl

/-- C8.  Replaying any sequence of discount observations for one item
through `_update_summary` leaves `min_discount` equal to the minimum of
the positive observations (NULL when there are none); one update step
never increases a present `min_discount`; and after every update of a
replay with non-decreasing observation times, `last_seen >= first_seen`
holds. -/
theorem summary_replay_min_and_clock :
    (∀ obs : List (ℤ × Nat),
        summaryMin (replay_summary obs) = minPos (obs.map Prod.fst)) ∧
    (∀ (st : Option SummaryRow) (d : ℤ) (now : Nat) (m : ℤ),
        summaryMin st = some m →
        ∃ m2, (update_summary_row st d now).min_discount = some m2 ∧
          m2 ≤ m) ∧
    (∀ (obs : List (ℤ × Nat)) (k : Nat) (row : SummaryRow),
        timesMono 0 obs → replay_summary (obs.take k) = some row →
        row.first_seen ≤ row.last_seen) := by
  refine ⟨?_, update_summary_row_min_mono, ?_⟩
  · intro obs
    unfold replay_summary
    rw [foldl_update_summary_min]
    rfl
  · intro obs k row hmono hrep
    unfold replay_summary at hrep
    obtain ⟨t2, hc⟩ :=
      replay_summary_clock (obs.take k) none 0
        (fun r h => Option.noConfusion h) (timesMono_take obs k 0 hmono)
    exact (hc row hrep).1

/-- C9, counterexample.  The claim says a missing required configuration
value is fatal at startup.  With all three required values missing,
`Config.validate` raises, but the module-level import-time check catches
the error and the import still completes — startup proceeds. -/
theorem config_error_not_fatal_cex :
    validate_raises ⟨"", "", ""⟩ = true ∧
    (config_module_import ⟨"", "", ""⟩).import_completes = true := by
  decide

/-- C9, amended.  `Config.validate` raises exactly when the Discord
token, the database URL or the Steam API key is missing, but the
import-time validation catches the error and only prints a warning: the
module import completes, and startup proceeds, in every case. -/
theorem config_validation_warns_only :
    ∀ e : ConfigEnv,
      (validate_raises e = true ↔
        (e.discord_token = "" ∨ e.database_url = "" ∨
          e.steam_api_key = "")) ∧
      (config_module_import e).import_completes = true ∧
      (config_module_import e).warning_printed = validate_raises e := by
  intro e
  refine ⟨?_, ?_, ?_⟩
  · by_cases h1 : e.discord_token = "" <;>
      by_cases h2 : e.database_url = "" <;>
      by_cases h3 : e.steam_api_key = "" <;>
      simp [validate_raises, validate_errors, h1, h2, h3]
  · unfold config_module_import
    split <;> rfl
  · unfold config_module_import
    split <;> simp_all

end SteamBot
